import Mathlib

/-!
Shallow embedding of the job-application tracker frontend
(st-vin/job-app-tracker-frontend), covering the data model and the pure
view-layer transforms of the pages the verified properties talk about:
the applications list page (search, status and salary filters, kanban
grouping, delete handler), the reminders list page (sent-flag toggle and
badge label), the auth context (login/logout against browser local
storage) and the analytics salary distribution.

JavaScript numbers are modelled as integers (`Int`), which is exact for
the ids and salary amounts these computations handle; JavaScript strings
are Lean strings, with `toLowerCase` modelled by `String.toLower` and
`String.prototype.includes` by list-infix containment on the characters.
-/

namespace JobTracker

/-- Status enumeration, src/client/src/types/application.types.ts lines 3-11.
The eight string literals of the TypeScript union become the eight
constructors; `statusString` recovers the literal. -/
inductive ApplicationStatus where
  | APPLIED
  | PHONE_SCREEN
  | TECHNICAL
  | ONSITE
  | OFFER
  | REJECTED
  | INTERVIEW
  | WITHDRAWN
deriving DecidableEq, Repr, Fintype

open ApplicationStatus

/-- The TypeScript string literal denoting each status. -/
def statusString : ApplicationStatus → String
  | APPLIED => "APPLIED"
  | PHONE_SCREEN => "PHONE_SCREEN"
  | TECHNICAL => "TECHNICAL"
  | ONSITE => "ONSITE"
  | OFFER => "OFFER"
  | REJECTED => "REJECTED"
  | INTERVIEW => "INTERVIEW"
  | WITHDRAWN => "WITHDRAWN"

/-- The statuses in the order the TypeScript union declares them. -/
def statusList : List ApplicationStatus :=
  [APPLIED, PHONE_SCREEN, TECHNICAL, ONSITE, OFFER, REJECTED, INTERVIEW, WITHDRAWN]

/-- Owner sub-record optionally embedded in an application
(application.types.ts lines 25-29). -/
structure AppUserRef where
  id : Int
  firstName : String
  lastName : String
deriving DecidableEq, Repr

/-- Application record, src/client/src/types/application.types.ts lines 13-33.
Optional fields become `Option`; ISO date strings stay strings. -/
structure Application where
  id : Int
  companyName : String
  position : String
  status : ApplicationStatus
  appliedDate : String
  salary : Option Int := none
  jobBoardSource : Option String := none
  jobUrl : Option String := none
  notes : Option String := none
  createdAt : String := ""
  updatedAt : String := ""
  user : Option AppUserRef := none
  reminderCount : Option Int := none
  interviewNoteCount : Option Int := none
  statusHistoryCount : Option Int := none
deriving DecidableEq, Repr

/-- JavaScript `String.prototype.toLowerCase()`: character-wise lowercase
(stated on the character list so that it evaluates by kernel
reduction). -/
def jsToLower (s : String) : String := ⟨s.data.map Char.toLower⟩

/-- JavaScript `s.includes(q)`: `q` occurs in `s` as a contiguous substring. -/
def jsIncludes (s q : String) : Bool := decide (q.data <:+: s.data)

/-- STATUS_COLORS, src/client/src/pages/ApplicationsListPage.tsx lines 37-46:
the badge color classes assigned to each status. -/
def STATUS_COLORS : ApplicationStatus → String
  | APPLIED => "bg-blue-100 text-blue-800"
  | PHONE_SCREEN => "bg-purple-100 text-purple-800"
  | TECHNICAL => "bg-pink-100 text-pink-800"
  | ONSITE => "bg-amber-100 text-amber-800"
  | OFFER => "bg-green-100 text-green-800"
  | REJECTED => "bg-red-100 text-red-800"
  | INTERVIEW => "bg-cyan-100 text-cyan-800"
  | WITHDRAWN => "bg-gray-100 text-gray-800"

/-- Raw value of a numeric input field as the salary filter reads it
(ApplicationsListPage.tsx lines 90-96): `blank` when the string trims to
empty, `invalid` when it is nonempty but `Number()` yields NaN, `num n`
when it parses to the number `n`. -/
inductive NumField where
  | blank
  | invalid
  | num (n : Int)
deriving DecidableEq, Repr

/-- The bound actually used for comparison: `parsedMin`/`parsedMax` after
the NaN check (lines 90-93), `undefined` becoming `none`. -/
def NumField.parsed : NumField → Option Int
  | .blank => none
  | .invalid => none
  | .num n => some n

/-- Whether the raw field is nonempty after trimming, the way
`hasSalaryFilter` tests it (lines 94-96). -/
def NumField.isPresent : NumField → Bool
  | .blank => false
  | .invalid => true
  | .num _ => true

/-- The `matchesSearch` conjunct of the filter callback
(ApplicationsListPage.tsx lines 81-85): case-insensitive substring match
against company name or position. -/
def matchesSearch (search : String) (app : Application) : Bool :=
  jsIncludes (jsToLower app.companyName) (jsToLower search) ||
  jsIncludes (jsToLower app.position) (jsToLower search)

/-- The `matchesStatus` conjunct (lines 87-88): no status selected, or the
record's status is among the selected ones. -/
def matchesStatus (selectedStatuses : List ApplicationStatus) (app : Application) : Bool :=
  selectedStatuses.length == 0 || selectedStatuses.contains app.status

/-- The `hasSalaryFilter` test (lines 94-96): either raw salary field is a
nonempty string. -/
def hasSalaryFilter (salaryMin salaryMax : NumField) : Bool :=
  salaryMin.isPresent || salaryMax.isPresent

/-- The `matchesSalary` conjunct (lines 97-102): with a salary filter
active the record needs a salary inside the parsed bounds; a bound that
is absent or NaN imposes no constraint. -/
def matchesSalary (salaryMin salaryMax : NumField) (app : Application) : Bool :=
  !(hasSalaryFilter salaryMin salaryMax) ||
  (match app.salary with
   | none => false
   | some s =>
     (match salaryMin.parsed with
      | none => true
      | some lo => decide (s ≥ lo)) &&
     (match salaryMax.parsed with
      | none => true
      | some hi => decide (s ≤ hi)))

/-- The `filteredApplications` memo (ApplicationsListPage.tsx lines 77-106):
the fetched list filtered by the conjunction of the three predicates. -/
def filteredApplications (applications : List Application) (search : String)
    (selectedStatuses : List ApplicationStatus)
    (salaryMin salaryMax : NumField) : List Application :=
  applications.filter fun app =>
    matchesSearch search app && matchesStatus selectedStatuses app &&
    matchesSalary salaryMin salaryMax app

/-- The `groupedByStatus` memo (ApplicationsListPage.tsx lines 109-126):
starting from eight empty groups, each filtered application is pushed onto
the group named by its own status, preserving list order. -/
def groupedByStatus (filtered : List Application) :
    ApplicationStatus → List Application :=
  filtered.foldl
    (fun groups app s => if s = app.status then groups s ++ [app] else groups s)
    (fun _ => [])

/-- Client-side state relevant to the applications list: the backend's
list and the cached copy (query key "applications") the page renders
from. -/
structure ListPageState where
  serverApps : List Application
  cachedApps : List Application
deriving DecidableEq, Repr

/-- Modelled from the spec: the cache-library-managed copy is refreshed by
re-fetching the list (what `queryClient.invalidateQueries` on the
"applications" key would trigger; the library itself is an external
dependency). -/
def refetchApplications (st : ListPageState) : ListPageState :=
  { st with cachedApps := st.serverApps }

/-- The backend effect of `applicationsApi.delete id`: the record with the
given id is removed from the server-side list. -/
def serverDelete (st : ListPageState) (id : Int) : ListPageState :=
  { st with serverApps := st.serverApps.filter fun app => app.id != id }

/-- The `handleDelete` handler (ApplicationsListPage.tsx lines 128-137):
it awaits the DELETE call and shows a toast. It performs no query
invalidation or refetch, so the cached list is untouched. -/
def handleDelete (st : ListPageState) (id : Int) : ListPageState :=
  serverDelete st id

/-- The list of records the page renders (table rows / grid cards) for the
current filter inputs: `filteredApplications` over the cached data. -/
def renderedApplications (st : ListPageState) (search : String)
    (selectedStatuses : List ApplicationStatus)
    (salaryMin salaryMax : NumField) : List Application :=
  filteredApplications st.cachedApps search selectedStatuses salaryMin salaryMax

/-- Reminder record, src/client/src/types/reminder.types.ts lines 5-14
(the optional embedded application is omitted from the model; the
properties below never consult it). -/
structure Reminder where
  id : Int
  applicationId : Int
  reminderMessage : String
  reminderDate : String
  sent : Bool
  createdAt : String := ""
  updatedAt : String := ""
deriving DecidableEq, Repr

/-- The `markCompleteMutation` (RemindersListPage.tsx lines 131-140): the
update request sets the reminder's sent flag to its negation; this is the
reminder after the backend applies that update. -/
def markComplete (r : Reminder) : Reminder := { r with sent := !r.sent }

/-- The badge label in `renderReminderCard` (RemindersListPage.tsx lines
206-208). -/
def reminderBadgeLabel (r : Reminder) : String :=
  if r.sent then "Completed" else "Pending"

/-- User record, src/client/src/types/auth.types.ts (identifier, name
fields, email, optional role). -/
structure User where
  id : Int
  firstName : String
  lastName : String
  email : String
  role : Option String := none
deriving DecidableEq, Repr

/-- Browser local storage: an association of string keys to string
values. -/
def Storage := List (String × String)

instance : DecidableEq Storage := inferInstanceAs (DecidableEq (List (String × String)))

/-- localStorage.setItem: any previous binding of the key is replaced. -/
def Storage.setItem (st : Storage) (k v : String) : Storage :=
  (st.filter fun kv => kv.1 != k) ++ [(k, v)]

/-- localStorage.removeItem. -/
def Storage.removeItem (st : Storage) (k : String) : Storage :=
  st.filter fun kv => kv.1 != k

/-- localStorage.getItem: the value bound to the key, if any. -/
def Storage.getItem (st : Storage) (k : String) : Option String :=
  (st.find? fun kv => kv.1 == k).map (·.2)

/-- JSON.stringify of the user record as `login` stores it. -/
def serializeUser (u : User) : String :=
  "\x7b\"id\":" ++ toString u.id ++
  ",\"firstName\":\"" ++ u.firstName ++
  "\",\"lastName\":\"" ++ u.lastName ++
  "\",\"email\":\"" ++ u.email ++
  (match u.role with
   | none => "\""
   | some r => "\",\"role\":\"" ++ r ++ "\"") ++ "\x7d"

/-- Auth context state (AuthContext.tsx lines 7-10) together with the
browser local storage it reads and writes. -/
structure AuthState where
  user : Option User
  token : Option String
  storage : Storage
deriving DecidableEq

/-- The `login` function (AuthContext.tsx lines 35-48) on a successful
backend response carrying `newToken` and `newUser`: both React states are
set and both values are written to local storage. -/
def login (st : AuthState) (newToken : String) (newUser : User) : AuthState :=
  { user := some newUser
    token := some newToken
    storage :=
      (st.storage.setItem "job_tracker_token" newToken).setItem
        "job_tracker_user" (serializeUser newUser) }

/-- The `logout` function (AuthContext.tsx lines 50-55): both React states
are cleared and both local-storage entries removed. -/
def logout (st : AuthState) : AuthState :=
  { user := none
    token := none
    storage :=
      (st.storage.removeItem "job_tracker_token").removeItem "job_tracker_user" }

/-- The `isAuthenticated` field of the context value (AuthContext.tsx line
81): the JavaScript truthiness test `!!token && !!user`; an empty token
string is falsy, a user object is always truthy. -/
def isAuthenticated (st : AuthState) : Bool :=
  (match st.token with
   | none => false
   | some t => t != "") &&
  st.user.isSome

/-- One salary bucket of the analytics page's salary distribution;
`max = none` models the `Infinity` upper bound of the last bucket. -/
structure SalaryBucket where
  range : String
  min : Int
  max : Option Int
deriving DecidableEq, Repr

/-- The `salaryRanges` array of the analytics page (src/unnamed/part_002
lines 114-122), with each bucket's count still zero. -/
def salaryRanges : List SalaryBucket :=
  [⟨"0-50K", 0, some 50000⟩,
   ⟨"50-75K", 50000, some 75000⟩,
   ⟨"75-100K", 75000, some 100000⟩,
   ⟨"100-125K", 100000, some 125000⟩,
   ⟨"125-150K", 125000, some 150000⟩,
   ⟨"150-200K", 150000, some 200000⟩,
   ⟨"200K+", 200000, none⟩]

/-- The bucket-membership test `salary >= r.min && salary < r.max`
(part_002 line 126); a finite salary is always below `Infinity`. -/
def inBucket (s : Int) (b : SalaryBucket) : Bool :=
  decide (s ≥ b.min) &&
  (match b.max with
   | none => true
   | some m => decide (s < m))

/-- The `appsWithSalary` filter (part_002 line 113): `app.salary &&
app.salary > 0`; a missing salary and the falsy salary 0 are both
excluded. -/
def appsWithSalary (applications : List Application) : List Application :=
  applications.filter fun app =>
    match app.salary with
    | none => false
    | some s => decide (s > 0)

/-- One step of the counting loop (part_002 lines 124-128): find the first
bucket whose interval contains the salary and increment its count. -/
def bucketStep : List (SalaryBucket × Nat) → Int → List (SalaryBucket × Nat)
  | [], _ => []
  | (b, c) :: rest, s =>
    if inBucket s b then (b, c + 1) :: rest else (b, c) :: bucketStep rest s

/-- The salary distribution the analytics page computes: each application
with a positive salary increments the first bucket containing it. -/
def salaryDistribution (applications : List Application) :
    List (SalaryBucket × Nat) :=
  ((appsWithSalary applications).map fun app => app.salary.getD 0).foldl
    bucketStep (salaryRanges.map fun b => (b, 0))

/-- The spec renders status names in lowercase with hyphens for
underscores (phone-screen for PHONE_SCREEN, and so on); this is that
rendering of a status's string literal. -/
def statusSpecStyle (s : ApplicationStatus) : String :=
  ⟨(statusString s).data.map fun c => if c = '_' then '-' else c.toLower⟩

/-- The eight status names exactly as the specification enumerates
them. -/
def specStatusNames : List String :=
  ["submitted", "phone-screen", "technical", "onsite", "offer", "rejected",
   "interview", "withdrawn"]

/-- A salary lies within the given filter bounds: at least the parsed
lower bound when one is given, at most the parsed upper bound when one is
given. -/
def withinBounds (salaryMin salaryMax : NumField) (s : Int) : Bool :=
  (match salaryMin.parsed with
   | none => true
   | some lo => decide (lo ≤ s)) &&
  (match salaryMax.parsed with
   | none => true
   | some hi => decide (s ≤ hi))

/-- A sample application with a salary, used to instantiate the proved
properties on concrete data. -/
def appW : Application :=
  { id := 1, companyName := "Acme", position := "Developer",
    status := .APPLIED, appliedDate := "2024-01-02", salary := some 70000 }

/-- A sample application without a salary. -/
def appN : Application :=
  { id := 2, companyName := "Globex", position := "Analyst",
    status := .OFFER, appliedDate := "2024-02-03" }

/-- A sample application whose salary is the falsy value 0. -/
def appZ : Application :=
  { id := 3, companyName := "Initech", position := "QA",
    status := .REJECTED, appliedDate := "2024-03-04", salary := some 0 }

/-- A sample pending reminder. -/
def reminderW : Reminder :=
  { id := 10, applicationId := 1, reminderMessage := "follow up",
    reminderDate := "2024-03-01T10:00", sent := false }

/-- A sample user record. -/
def userW : User :=
  { id := 7, firstName := "Ada", lastName := "Lovelace",
    email := "ada@example.com" }

/-- C1: the claim says a successfully deleted application no longer
appears in the rendered list once the mutation resolves. On the code it
does still appear: `handleDelete` awaits the DELETE and toasts but never
invalidates or refetches the "applications" query, so the page keeps
rendering the cached list. Concretely: the backend list is empty after
deleting id 1, yet the rendered list still contains the record; a refetch
(what invalidation would trigger) would clear it. -/
theorem handleDelete_leaves_record_rendered :
    (handleDelete ⟨[appW], [appW]⟩ 1).serverApps = [] ∧
    renderedApplications (handleDelete ⟨[appW], [appW]⟩ 1) "" [] .blank .blank
      = [appW] ∧
    renderedApplications (refetchApplications (handleDelete ⟨[appW], [appW]⟩ 1))
      "" [] .blank .blank = [] := by
  decide

/-- C4: toggling a reminder negates its sent flag, doing it twice restores
the record, the badge label is "Completed" exactly when sent and "Pending"
exactly when not, and one toggle changes the label. -/
theorem markComplete_involutive_flips_badge (r : Reminder) :
    (markComplete r).sent = !r.sent ∧
    markComplete (markComplete r) = r ∧
    (reminderBadgeLabel r = "Completed" ↔ r.sent = true) ∧
    (reminderBadgeLabel r = "Pending" ↔ r.sent = false) ∧
    reminderBadgeLabel (markComplete r) ≠ reminderBadgeLabel r := by
  obtain ⟨i, a, m, d, sent, c, u⟩ := r
  cases sent <;> simp [markComplete, reminderBadgeLabel]

/-- Concrete instance of the C4 theorem on a pending reminder. -/
theorem markComplete_flips_badge_witness :
    reminderBadgeLabel reminderW = "Pending" ∧
    reminderBadgeLabel (markComplete reminderW) = "Completed" ∧
    markComplete (markComplete reminderW) = reminderW :=
  ⟨rfl, rfl, (markComplete_involutive_flips_badge reminderW).2.1⟩

/-- C2: every record the salary filter lets through whose salary is `s`
satisfies the parsed numeric bounds inclusively: at least the lower bound
when one is given, at most the upper bound when one is given. -/
theorem filtered_salary_within_bounds
    (apps : List Application) (search : String)
    (sel : List ApplicationStatus) (mn mx : NumField)
    (app : Application) (s : Int)
    (hmem : app ∈ filteredApplications apps search sel mn mx)
    (hs : app.salary = some s) :
    withinBounds mn mx s = true := by
  rw [filteredApplications, List.mem_filter] at hmem
  obtain ⟨-, hp⟩ := hmem
  simp only [Bool.and_eq_true] at hp
  obtain ⟨⟨-, -⟩, hsal⟩ := hp
  cases mn <;> cases mx <;>
    simp_all [matchesSalary, withinBounds, NumField.parsed, NumField.isPresent,
      hasSalaryFilter, hs]

/-- Concrete instance of the C2 theorem: with bounds 50000 and 100000 the
surviving record's salary 70000 lies within them. -/
theorem filtered_salary_within_bounds_witness :
    appW ∈ filteredApplications [appW, appN] "" [] (.num 50000) (.num 100000) ∧
    withinBounds (.num 50000) (.num 100000) 70000 = true :=
  ⟨by decide,
   filtered_salary_within_bounds [appW, appN] "" [] (.num 50000) (.num 100000)
     appW 70000 (by decide) rfl⟩

/-- C3 as stated fails at the empty selection: with no status selected the
filter is inactive, so a record survives although its status belongs to
the (empty) selected subset of no record. -/
theorem statusFilter_empty_selection_counterexample :
    appW ∈ filteredApplications [appW] "" [] .blank .blank ∧
    ([] : List ApplicationStatus).contains appW.status = false :=
  ⟨by decide, rfl⟩

/-- C3 amended: whenever at least one status is selected, every record in
the filtered result has its status among the selected ones. -/
theorem statusFilter_nonempty_only_selected
    (apps : List Application) (search : String)
    (sel : List ApplicationStatus) (mn mx : NumField) (app : Application)
    (hne : sel ≠ [])
    (hmem : app ∈ filteredApplications apps search sel mn mx) :
    sel.contains app.status = true := by
  rw [filteredApplications, List.mem_filter] at hmem
  obtain ⟨-, hp⟩ := hmem
  simp only [Bool.and_eq_true] at hp
  obtain ⟨⟨-, hst⟩, -⟩ := hp
  rw [matchesStatus, Bool.or_eq_true] at hst
  rcases hst with h | h
  · cases sel with
    | nil => exact absurd rfl hne
    | cons a l => simp at h
  · exact h

/-- Concrete instance of the amended C3 theorem with the selection
consisting of APPLIED alone. -/
theorem statusFilter_nonempty_witness :
    appW ∈ filteredApplications [appW] "" [ApplicationStatus.APPLIED]
      .blank .blank ∧
    [ApplicationStatus.APPLIED].contains appW.status = true :=
  ⟨by decide,
   statusFilter_nonempty_only_selected [appW] "" [ApplicationStatus.APPLIED]
     .blank .blank appW (by decide) (by decide)⟩

/-- With no status selected the status conjunct always holds. -/
theorem matchesStatus_nil (app : Application) : matchesStatus [] app = true := rfl

/-- With both salary fields blank the salary conjunct always holds. -/
theorem matchesSalary_blank (app : Application) :
    matchesSalary .blank .blank app = true := rfl

/-- The empty search string matches every record. -/
theorem matchesSearch_empty (app : Application) : matchesSearch "" app = true := by
  rw [matchesSearch, Bool.or_eq_true]
  exact Or.inl (decide_eq_true List.nil_infix)

/-- C5: with the other filters inactive, a record is in the result exactly
when it is in the fetched list and its lowercased company name or
position contains the lowercased query as a substring; the empty query
keeps the whole list. -/
theorem search_membership_iff (apps : List Application) (q : String)
    (app : Application) :
    (app ∈ filteredApplications apps q [] .blank .blank ↔
      app ∈ apps ∧
        (jsIncludes (jsToLower app.companyName) (jsToLower q) = true ∨
         jsIncludes (jsToLower app.position) (jsToLower q) = true)) ∧
    filteredApplications apps "" [] .blank .blank = apps := by
  constructor
  · rw [filteredApplications, List.mem_filter]
    have hp : ∀ a : Application,
        (matchesSearch q a && matchesStatus [] a && matchesSalary .blank .blank a)
          = matchesSearch q a := by
      intro a
      rw [matchesStatus_nil, matchesSalary_blank, Bool.and_true, Bool.and_true]
    rw [hp, matchesSearch, Bool.or_eq_true]
  · rw [filteredApplications]
    apply List.filter_eq_self.mpr
    intro a _
    rw [matchesSearch_empty, matchesStatus_nil, matchesSalary_blank]
    rfl

/-- Concrete instance of the C5 theorem: the query "acm" keeps the record
whose company is Acme, and the empty query keeps everything. -/
theorem search_membership_witness :
    appW ∈ filteredApplications [appW, appN] "acm" [] .blank .blank ∧
    filteredApplications [appW, appN] "" [] .blank .blank = [appW, appN] :=
  ⟨(search_membership_iff [appW, appN] "acm" appW).1.mpr
      ⟨by decide, Or.inl (by decide)⟩,
   (search_membership_iff [appW, appN] "" appW).2⟩

/-- C8: a record without a salary is dropped whenever either raw salary
field is nonempty, and kept (the salary conjunct imposing nothing) when
both are blank and the other conjuncts hold. -/
theorem salaryFilter_absent_salary
    (apps : List Application) (search : String)
    (sel : List ApplicationStatus) (mn mx : NumField) (app : Application)
    (hnone : app.salary = none) :
    (hasSalaryFilter mn mx = true →
      app ∉ filteredApplications apps search sel mn mx) ∧
    (app ∈ apps → matchesSearch search app = true →
      matchesStatus sel app = true →
      app ∈ filteredApplications apps search sel .blank .blank) := by
  constructor
  · intro hfil hmem
    rw [filteredApplications, List.mem_filter] at hmem
    obtain ⟨-, hp⟩ := hmem
    simp only [Bool.and_eq_true] at hp
    obtain ⟨-, hsal⟩ := hp
    simp only [matchesSalary, hfil, hnone, Bool.not_true, Bool.false_or] at hsal
    exact absurd hsal (by decide)
  · intro h1 h2 h3
    rw [filteredApplications, List.mem_filter]
    refine ⟨h1, ?_⟩
    rw [h2, h3, matchesSalary_blank]
    rfl

/-- Concrete instance of the C8 theorem on the record without a salary:
dropped under a lower bound of 50000, kept with both fields blank. -/
theorem salaryFilter_absent_salary_witness :
    (filteredApplications [appN] "" [] (.num 50000) .blank).contains appN
      = false ∧
    (filteredApplications [appN] "" [] .blank .blank).contains appN = true := by
  have h := salaryFilter_absent_salary [appN] "" [] (.num 50000) .blank appN rfl
  constructor
  · have h1 := h.1 rfl
    revert h1
    decide
  · have h2 := h.2 (by decide) rfl rfl
    revert h2
    decide

/-- C7 as stated fails on the status names: the code's enumeration begins
with APPLIED, so, rendering the literals the way the specification does
(lowercase, hyphens for underscores), no status is named "submitted" and
the concrete status APPLIED renders as "applied", which is not among the
eight names the claim lists. -/
theorem statusEnum_submitted_counterexample :
    specStatusNames.contains (statusSpecStyle ApplicationStatus.APPLIED)
      = false ∧
    statusList.map statusSpecStyle
      = ["applied", "phone-screen", "technical", "onsite", "offer",
         "rejected", "interview", "withdrawn"] := by
  decide

/-- C7 amended: the status type has exactly the eight enumerated values
(APPLIED rather than the specification's "submitted", the rest as listed)
and STATUS_COLORS assigns every one of them a color no other status gets:
it is total on the enumeration and injective. -/
theorem statusEnum_and_colors :
    Fintype.card ApplicationStatus = 8 ∧
    statusList.Nodup ∧
    statusList.length = 8 ∧
    (∀ s : ApplicationStatus, s ∈ statusList) ∧
    (statusList.map STATUS_COLORS).Nodup := by
  refine ⟨by decide, by decide, by decide, ?_, by decide⟩
  intro s
  cases s <;> decide

/-- Reading a key back after writing it yields the written value. -/
theorem Storage.getItem_setItem_self (s : Storage) (k v : String) :
    (s.setItem k v).getItem k = some v := by
  rw [Storage.setItem, Storage.getItem, List.find?_append, List.find?_filter]
  have hnone : s.find? (fun kv => (kv.1 != k) = true ∧ (kv.1 == k) = true)
      = none := by
    rw [List.find?_eq_none]
    intro x _
    simp
  rw [hnone, Option.none_or]
  simp

/-- Writing one key leaves the others' values unchanged. -/
theorem Storage.getItem_setItem_other (s : Storage) (k k' v : String)
    (h : k' ≠ k) :
    (s.setItem k v).getItem k' = s.getItem k' := by
  rw [Storage.setItem, Storage.getItem, Storage.getItem, List.find?_append,
    List.find?_filter]
  have h1 : List.find? (fun kv => kv.1 == k') [(k, v)] = none := by
    simp [Ne.symm h]
  have h2 : (fun kv : String × String =>
      decide ((kv.1 != k) = true ∧ (kv.1 == k') = true))
      = fun kv : String × String => kv.1 == k' := by
    funext kv
    by_cases hk : kv.1 = k'
    · simp [hk, h]
    · simp [hk]
  rw [h1, h2]
  cases s.find? fun kv : String × String => kv.1 == k' <;> rfl

/-- Removing a key makes it unreadable. -/
theorem Storage.getItem_removeItem_self (s : Storage) (k : String) :
    (s.removeItem k).getItem k = none := by
  rw [Storage.removeItem, Storage.getItem, List.find?_filter]
  have hnone : s.find? (fun kv => (kv.1 != k) = true ∧ (kv.1 == k) = true)
      = none := by
    rw [List.find?_eq_none]
    intro x _
    simp
  rw [hnone]
  rfl

/-- Removing one key leaves the others' values unchanged. -/
theorem Storage.getItem_removeItem_other (s : Storage) (k k' : String)
    (h : k' ≠ k) :
    (s.removeItem k).getItem k' = s.getItem k' := by
  rw [Storage.removeItem, Storage.getItem, Storage.getItem, List.find?_filter]
  have h2 : (fun kv : String × String =>
      decide ((kv.1 != k) = true ∧ (kv.1 == k') = true))
      = fun kv : String × String => kv.1 == k' := by
    funext kv
    by_cases hk : kv.1 = k'
    · simp [hk, h]
    · simp [hk]
  rw [h2]

/-- C6 as stated fails when the backend's successful response carries the
empty string as token: both local-storage entries are written, yet the
session is not authenticated, because the context computes authentication
by JavaScript truthiness and the empty string is falsy. -/
theorem login_empty_token_counterexample :
    (login ⟨none, none, []⟩ "" userW).storage.getItem "job_tracker_token"
      = some "" ∧
    (login ⟨none, none, []⟩ "" userW).storage.getItem "job_tracker_user"
      = some (serializeUser userW) ∧
    isAuthenticated (login ⟨none, none, []⟩ "" userW) = false := by
  decide

/-- C6 amended: for a successful login whose token is a nonempty string,
the token and the serialized user are stored under their keys and the
session is authenticated; logout always removes both entries and leaves
user and token null, hence unauthenticated. -/
theorem login_logout_storage (st st2 : AuthState) (t : String) (u : User)
    (ht : t ≠ "") :
    (login st t u).storage.getItem "job_tracker_token" = some t ∧
    (login st t u).storage.getItem "job_tracker_user"
      = some (serializeUser u) ∧
    isAuthenticated (login st t u) = true ∧
    (logout st2).user = none ∧
    (logout st2).token = none ∧
    (logout st2).storage.getItem "job_tracker_token" = none ∧
    (logout st2).storage.getItem "job_tracker_user" = none ∧
    isAuthenticated (logout st2) = false := by
  have hk : ("job_tracker_token" : String) ≠ "job_tracker_user" := by decide
  refine ⟨?_, ?_, ?_, rfl, rfl, ?_, ?_, rfl⟩
  · rw [login]
    rw [Storage.getItem_setItem_other _ _ _ _ hk,
      Storage.getItem_setItem_self]
  · rw [login, Storage.getItem_setItem_self]
  · rw [login, isAuthenticated]
    simp [ht]
  · rw [logout]
    rw [Storage.getItem_removeItem_other _ _ _ hk,
      Storage.getItem_removeItem_self]
  · rw [logout, Storage.getItem_removeItem_self]

/-- Concrete instance of the amended C6 theorem with a nonempty token. -/
theorem login_logout_storage_witness :
    (login ⟨none, none, []⟩ "tok123" userW).storage.getItem
      "job_tracker_token" = some "tok123" ∧
    isAuthenticated (login ⟨none, none, []⟩ "tok123" userW) = true ∧
    isAuthenticated (logout (login ⟨none, none, []⟩ "tok123" userW))
      = false := by
  have h := login_logout_storage ⟨none, none, []⟩
    (login ⟨none, none, []⟩ "tok123" userW) "tok123" userW (by decide)
  exact ⟨h.1, h.2.2.1, h.2.2.2.2.2.2.2⟩

/-- Running the kanban grouping loop from any starting groups appends, to
each status's group, exactly the traversed records of that status in
order. -/
theorem foldl_groups (apps : List Application)
    (g : ApplicationStatus → List Application) (s : ApplicationStatus) :
    (apps.foldl
      (fun groups app t => if t = app.status then groups t ++ [app] else groups t)
      g) s
      = g s ++ apps.filter (fun app => app.status == s) := by
  induction apps generalizing g with
  | nil => simp
  | cons a rest ih =>
    rw [List.foldl_cons, ih, List.filter_cons]
    by_cases h : a.status = s
    · simp [h, List.append_assoc]
    · simp [h, Ne.symm h]

/-- The per-status filter lengths sum to the length of the list. -/
theorem sum_filter_status_length (l : List Application) :
    (∑ s : ApplicationStatus, (l.filter fun app => app.status == s).length)
      = l.length := by
  induction l with
  | nil => simp
  | cons a rest ih =>
    have hstep : ∀ s : ApplicationStatus,
        ((a :: rest).filter fun app => app.status == s).length
          = (if a.status = s then 1 else 0)
            + (rest.filter fun app => app.status == s).length := by
      intro s
      rw [List.filter_cons]
      by_cases h : a.status = s
      · simp [h]
        omega
      · simp [h]
    simp only [hstep]
    rw [Finset.sum_add_distrib, ih]
    have hone : (∑ s : ApplicationStatus, if a.status = s then 1 else 0) = 1 := by
      rw [Finset.sum_ite_eq]
      simp
    rw [hone, List.length_cons]
    omega

/-- C9: the kanban grouping partitions the filtered list by status — each
group is exactly the order-preserving sublist of records of that status,
a record lies in a group exactly when the group is its own status's, and
the eight group sizes sum to the filtered list's length. -/
theorem kanban_partition (filtered : List Application) :
    (∀ s, groupedByStatus filtered s
        = filtered.filter fun app => app.status == s) ∧
    (∀ s app, app ∈ groupedByStatus filtered s ↔
      app ∈ filtered ∧ app.status = s) ∧
    (∑ s : ApplicationStatus, (groupedByStatus filtered s).length)
      = filtered.length := by
  have h1 : ∀ s, groupedByStatus filtered s
      = filtered.filter fun app => app.status == s := by
    intro s
    rw [groupedByStatus, foldl_groups]
    rfl
  refine ⟨h1, ?_, ?_⟩
  · intro s app
    rw [h1, List.mem_filter, beq_iff_eq]
  · simp only [h1]
    exact sum_filter_status_length filtered

/-- Concrete instance of the C9 theorem on a two-element list. -/
theorem kanban_partition_witness :
    groupedByStatus [appW, appN] ApplicationStatus.APPLIED = [appW] ∧
    (∑ s : ApplicationStatus, (groupedByStatus [appW, appN] s).length) = 2 := by
  have h := kanban_partition [appW, appN]
  constructor
  · rw [h.1 ApplicationStatus.APPLIED]
    decide
  · rw [h.2.2]
    rfl

/-- The counting step never changes which buckets are in the list. -/
theorem bucketStep_fst (l : List (SalaryBucket × Nat)) (s : Int) :
    (bucketStep l s).map Prod.fst = l.map Prod.fst := by
  induction l with
  | nil => rfl
  | cons bc rest ih =>
    obtain ⟨b, c⟩ := bc
    by_cases h : inBucket s b = true
    · simp [bucketStep, h]
    · simp [bucketStep, h, ih]

/-- When some bucket contains the salary, the counting step adds exactly
one to the total count. -/
theorem bucketStep_sum (l : List (SalaryBucket × Nat)) (s : Int)
    (h : l.any (fun bc => inBucket s bc.1) = true) :
    ((bucketStep l s).map Prod.snd).sum = (l.map Prod.snd).sum + 1 := by
  induction l with
  | nil => simp at h
  | cons bc rest ih =>
    obtain ⟨b, c⟩ := bc
    by_cases hb : inBucket s b = true
    · simp [bucketStep, hb]
      omega
    · have h2 : rest.any (fun bc => inBucket s bc.1) = true := by
        rw [List.any_cons] at h
        simpa [hb] using h
      simp [bucketStep, hb, ih h2]
      omega

/-- The counting step also preserves which buckets contain a given
salary. -/
theorem bucketStep_any (l : List (SalaryBucket × Nat)) (s t : Int) :
    ((bucketStep l s).any fun bc => inBucket t bc.1)
      = (l.any fun bc => inBucket t bc.1) := by
  induction l with
  | nil => rfl
  | cons bc rest ih =>
    obtain ⟨b, c⟩ := bc
    by_cases h : inBucket s b = true
    · simp [bucketStep, h]
    · simp [bucketStep, h, ih]

/-- Pairing each bucket with a count does not change which buckets contain
a given salary. -/
theorem any_map_pair (ranges : List SalaryBucket) (s : Int) :
    ((ranges.map fun b => (b, (0 : Nat))).any fun bc => inBucket s bc.1)
      = (ranges.any fun b => inBucket s b) := by
  induction ranges with
  | nil => rfl
  | cons b rest ih => simp [ih]

/-- Folding the counting step over salaries that each land in some bucket
raises the total count by the number of salaries. -/
theorem foldl_bucketStep_sum (sal : List Int) (l : List (SalaryBucket × Nat))
    (h : ∀ s ∈ sal, (l.any fun bc => inBucket s bc.1) = true) :
    ((sal.foldl bucketStep l).map Prod.snd).sum
      = (l.map Prod.snd).sum + sal.length := by
  induction sal generalizing l with
  | nil => simp
  | cons s rest ih =>
    rw [List.foldl_cons]
    have hs := h s (List.mem_cons_self s rest)
    rw [ih (bucketStep l s) ?hrest]
    · rw [bucketStep_sum l s hs, List.length_cons]
      omega
    case hrest =>
      intro t ht
      have ht' := h t (List.mem_cons_of_mem s ht)
      exact (bucketStep_any l s t).trans ht'

/-- C10: every positive salary lies in exactly one bucket of the analytics
salary distribution, and the bucket counts sum to the number of
applications with a positive salary (records with no salary or salary 0
never enter the count). -/
theorem salaryDistribution_partition (apps : List Application) :
    (∀ s : Int, 0 < s → salaryRanges.countP (fun b => inBucket s b) = 1) ∧
    ((salaryDistribution apps).map Prod.snd).sum
      = (appsWithSalary apps).length := by
  have hcount : ∀ s : Int, 0 < s →
      salaryRanges.countP (fun b => inBucket s b) = 1 := by
    intro s hs
    simp only [salaryRanges, List.countP_cons, List.countP_nil, inBucket,
      Bool.and_eq_true, Bool.and_true, Bool.true_and, and_true, true_and,
      decide_eq_true_eq, ge_iff_le]
    split_ifs <;> omega
  refine ⟨hcount, ?_⟩
  rw [salaryDistribution]
  have hpos : ∀ s ∈ (appsWithSalary apps).map (fun app => app.salary.getD 0),
      0 < s := by
    intro s hs
    rw [List.mem_map] at hs
    obtain ⟨app, hmem, he⟩ := hs
    rw [appsWithSalary, List.mem_filter] at hmem
    obtain ⟨-, hp⟩ := hmem
    cases happ : app.salary with
    | none =>
      rw [happ] at hp
      exact absurd hp (by decide)
    | some v =>
      rw [happ] at hp
      simp only [decide_eq_true_eq] at hp
      rw [← he, happ]
      simpa using hp
  have hany : ∀ s ∈ (appsWithSalary apps).map (fun app => app.salary.getD 0),
      ((salaryRanges.map fun b => (b, (0 : Nat))).any
        fun bc => inBucket s bc.1) = true := by
    intro s hs
    rw [any_map_pair]
    have h1 := hcount s (hpos s hs)
    have h2 : 0 < salaryRanges.countP (fun b => inBucket s b) := by omega
    rw [List.countP_pos_iff] at h2
    rw [List.any_eq_true]
    exact h2
  rw [foldl_bucketStep_sum _ _ hany]
  have hinit : ((salaryRanges.map fun b => (b, (0 : Nat))).map Prod.snd).sum
      = 0 := rfl
  rw [hinit, List.length_map, Nat.zero_add]

/-- Concrete instance of the C10 theorem: salary 70000 lands in exactly
one bucket, and on a list with one positive-salary record, one record
without a salary and one record with salary 0 the counts sum to 1. -/
theorem salaryDistribution_partition_witness :
    salaryRanges.countP (fun b => inBucket 70000 b) = 1 ∧
    ((salaryDistribution [appW, appN, appZ]).map Prod.snd).sum
      = (appsWithSalary [appW, appN, appZ]).length ∧
    (appsWithSalary [appW, appN, appZ]).length = 1 := by
  have h := salaryDistribution_partition [appW, appN, appZ]
  exact ⟨h.1 70000 (by decide), h.2, by decide⟩

end JobTracker
